import Mathlib

/-!
Shallow embedding of `src/examples/ner/bert/system_wrapper.py`
(`NERBERTSystemWrapper`): a training/evaluation orchestration wrapper for
token-level NER.  The module is glue code over external libraries
(`pytorch_wrapper`, `transformers`, `torch`, `seqeval`), so the embedding
models the wrapper's own control flow, path construction, configuration
plumbing and observable side effects as explicit effect traces, while the
external collaborators (model forward pass, classification-report text,
metric aggregation, dataset file loading) are abstracted as oracle
parameters.
-/

set_option autoImplicit false
set_option linter.unusedVariables false
set_option maxRecDepth 4000

namespace NERBert

/-- A torch device.  `torch.device('cuda')` carries no index (`cudaAny`);
`torch.device('cuda:0')` is `cuda 0`; `torch.device('cpu')` is `cpu`. -/
inductive Device where
  | cpu : Device
  | cudaAny : Device
  | cuda : Nat → Device
deriving DecidableEq, Repr

/-- A collated batch from the data loader: a flattened `target` label tensor
(label ids, `-1` marking ignored positions) and opaque input ids. -/
structure Batch where
  target : List Int
  input : List Int
deriving DecidableEq, Repr

/-- A `NERBERTDataset` as far as this wrapper observes it: its index-to-label
mapping `I2L` and the sequence of collated batches its data loader yields. -/
structure Dataset where
  i2l : List String
  batches : List Batch
deriving DecidableEq, Repr

/-- State of a constructed `NERBERTSystemWrapper`: the pretrained model name
and the device chosen at construction time (`__init__`). -/
structure SystemState where
  pretrainedName : String
  device : Device
deriving DecidableEq, Repr

/-- Construction (`__init__`): the device is GPU (`torch.device('cuda')`,
no index) when CUDA is available, else CPU. -/
def mkSystem (pretrainedName : String) (cudaAvailable : Bool) : SystemState :=
  { pretrainedName := pretrainedName
    device := if cudaAvailable then Device.cudaAny else Device.cpu }

/-- The configuration handed to the external training engine by
`_train_impl` (`pw.System.train` / `train_on_multi_gpus` together with the
`EarlyStoppingCriterionCallback`). -/
structure TrainRunConfig where
  lr : Rat
  batchSize : Nat
  gradAccumulationSteps : Nat
  multiGpus : Bool
  patience : Nat
  evalLoaderKey : String
  evaluatorKey : String
  evaluatorI2L : List String
  checkpointPath : String
  verbose : Bool
deriving DecidableEq, Repr

/-- The six metric scores returned by `pw.System.evaluate`
(`macro/micro` × `prec/rec/f1`), abstracted to their scores. -/
structure EvalResults where
  macroPrec : Rat
  macroRec : Rat
  macroF1 : Rat
  microPrec : Rat
  microRec : Rat
  microF1 : Rat
deriving DecidableEq, Repr

/-- Observable side effects of the wrapper, in program order.  `removeDir` and
`removeFile` stand for `os`-level deletions: the module never emits them,
which is itself one of the verified frame properties. -/
inductive Effect where
  | manualSeed : Int → Effect
  | buildTokenizer : String → Effect
  | buildDataset : String → Effect
  | constructWrapper : String → Rat → Effect
  | buildLoader : Bool → Nat → Int → Effect
  | mkLossWrapper : Effect
  | mkOptimizer : Rat → Effect
  | makeDirs : String → Bool → Effect
  | removeDir : String → Effect
  | removeFile : String → Effect
  | trainingRun : TrainRunConfig → Effect
  | buildEvaluators : List String → Effect
  | toDevice : String → Device → Effect
  | predictBatch : Effect
  | viewReshape : Nat → Effect
  | printOut : String → Effect
  | printSetDiff : Effect
  | fileWrite : String → String → String → Effect
  | evalMetrics : Bool → Bool → Effect
  | saveState : String → Effect
deriving DecidableEq, Repr

/-- External collaborators of the wrapper, abstracted: the model's logits for
a batch (already flattened, row-major), `seqeval.metrics.classification_report`
as a text function, and the scores computed by the external evaluation engine. -/
structure Externals where
  logitsOf : Batch → List Rat
  classReport : List String → List String → String
  runEval : Bool → Bool → EvalResults

/-- Effective index of Python list subscription: a negative index counts from
the end of a list of length `len`. -/
def pyEffIdx (len : Nat) (i : Int) : Int :=
  if i < 0 then i + len else i

/-- Python list subscription `xs[i]`: negative indices count from the end;
out-of-range access raises `IndexError: list index out of range`. -/
def pyListGet {α : Type} (xs : List α) (i : Int) : Except String α :=
  if h : 0 ≤ pyEffIdx xs.length i ∧ (pyEffIdx xs.length i).toNat < xs.length then
    Except.ok (xs.get ⟨(pyEffIdx xs.length i).toNat, h.2⟩)
  else Except.error "list index out of range"

/-- Accumulator loop of `chunkRows`: `cur` holds the reversed partial current
row; a row is emitted whenever it reaches `cols` elements. -/
def chunkAux {α : Type} (cols : Nat) : List α → List α → List (List α)
  | [], cur => if cur.isEmpty then [] else [cur.reverse]
  | x :: xs, cur =>
    if (x :: cur).length = cols then (x :: cur).reverse :: chunkAux cols xs []
    else chunkAux cols xs (x :: cur)

/-- Splits a list into consecutive rows of length `cols`. -/
def chunkRows {α : Type} (cols : Nat) (xs : List α) : List (List α) :=
  chunkAux cols xs []

/-- `tensor.view(-1, cols)`: reshapes to rows of width `cols`; raises when the
number of elements is not divisible by `cols`. -/
def pyView {α : Type} (xs : List α) (cols : Nat) : Except String (List (List α)) :=
  if 0 < cols ∧ xs.length % cols = 0 then Except.ok (chunkRows cols xs)
  else Except.error "view size mismatch"

/-- `torch.argmax` over one row: index of the first maximal element
(0 for an empty row, which cannot arise from a successful `view`). -/
def argmaxIdx : List Rat → Nat
  | [] => 0
  | x :: xs =>
    (xs.enum.foldl (fun acc p => if acc.2 < p.2 then (p.1 + 1, p.2) else acc) (0, x)).1

/-- Python string slice `s[:n]`. -/
def strTake (s : String) (n : Nat) : String := String.mk (s.data.take n)

/-- The fixed report-subdirectory list of `_evaluate_impl`:
`['greek_legal_v2','greek','greek_legal_v1']`. -/
def reportDirs : List String := ["greek_legal_v2", "greek", "greek_legal_v1"]

/-- The report file path written by `_evaluate_impl`:
`'../NER/reports/' + dir + '/report_' + str(experiment) + '.txt'`. -/
def reportFilePath (dir : String) (experiment : Int) : String :=
  "../NER/reports/" ++ dir ++ "/report_" ++ toString experiment ++ ".txt"

/-- One batch of the report branch of `_evaluate_impl`: move the batch's
`target` tensor to `torch.device('cuda:0')`, predict logits, reshape them via
`view(-1, 17)`, take per-row argmax, and keep the (gold, predicted) pairs at
positions whose gold label is not the ignore sentinel `-1`.  Returns the
effects emitted and either the masked pairs of all batches or the first
error. -/
def reportLoop (ex : Externals) : List Batch → List Effect × Except String (List (Int × Int))
  | [] => ([], Except.ok [])
  | b :: rest =>
    let effs := [Effect.toDevice "target" (Device.cuda 0), Effect.predictBatch,
                 Effect.viewReshape 17]
    match pyView (ex.logitsOf b) 17 with
    | Except.error e => (effs, Except.error e)
    | Except.ok rows =>
      let preds := rows.map (fun r => Int.ofNat (argmaxIdx r))
      let pairs := (b.target.zip preds).filter (fun p => decide (p.1 ≠ -1))
      match reportLoop ex rest with
      | (effs2, Except.error e) => (effs ++ effs2, Except.error e)
      | (effs2, Except.ok pairs2) => (effs ++ effs2, Except.ok (pairs ++ pairs2))

/-- Maps collected label ids back to label strings through the dataset's
`I2L` list, with Python subscription semantics
(`[eval_dataset.I2L[id.item()] for id in ...]`). -/
def mapI2L (i2l : List String) (ids : List Int) : Except String (List String) :=
  ids.mapM (pyListGet i2l)

/-- `_evaluate_impl`: builds a sequential loader and the six evaluators from
`eval_dataset.I2L`; when `report` is true runs the report branch (prediction
on `cuda:0`, reshape to width 17, masking, `classification_report`, two
prints, subdirectory selection by `which_model`, file write in mode `'w'`);
finally delegates to the external evaluation engine.  Returns the emitted
effect trace and either the metric results or the first raised error. -/
def evaluateImpl (self : SystemState) (ex : Externals) (ds : Dataset)
    (batchSize : Nat) (runOnMultiGpus : Bool) (padValue : Int) (report : Bool)
    (whichModel : Int) (experiment : Int) (verbose : Bool) :
    List Effect × Except String EvalResults :=
  let pre := [Effect.buildLoader false batchSize padValue,
              Effect.buildEvaluators ds.i2l]
  match report with
  | true =>
    let loopEffs := (reportLoop ex ds.batches).1
    match (reportLoop ex ds.batches).2 with
    | Except.error e => (pre ++ loopEffs, Except.error e)
    | Except.ok pairs =>
      match mapI2L ds.i2l (pairs.map Prod.fst) with
      | Except.error e => (pre ++ loopEffs, Except.error e)
      | Except.ok finalLabels =>
        match mapI2L ds.i2l (pairs.map Prod.snd) with
        | Except.error e => (pre ++ loopEffs, Except.error e)
        | Except.ok finalPredictions =>
          let reportText := ex.classReport finalLabels finalPredictions
          let printEffs := [Effect.printOut reportText, Effect.printSetDiff]
          match pyListGet reportDirs whichModel with
          | Except.error e => (pre ++ loopEffs ++ printEffs, Except.error e)
          | Except.ok dir =>
            (pre ++ loopEffs ++ printEffs ++
               [Effect.fileWrite (reportFilePath dir experiment) "w" reportText,
                Effect.evalMetrics runOnMultiGpus verbose],
             Except.ok (ex.runEval runOnMultiGpus verbose))
  | false =>
    (pre ++ [Effect.evalMetrics runOnMultiGpus verbose],
     Except.ok (ex.runEval runOnMultiGpus verbose))

/-- `evaluate`: builds the tokenizer and the evaluation dataset from the file
(the loading itself is the oracle `loadDataset`), then calls `_evaluate_impl`
with `report := True` and the given `which_model` / `experiment`. -/
def evaluate (self : SystemState) (ex : Externals) (loadDataset : String → Dataset)
    (padTokenId : Int) (evalDatasetFile : String) (batchSize : Nat)
    (runOnMultiGpus : Bool) (whichModel : Int) (experiment : Int) (verbose : Bool) :
    List Effect × Except String EvalResults :=
  let pre := [Effect.buildTokenizer self.pretrainedName,
              Effect.buildDataset evalDatasetFile]
  let r := evaluateImpl self ex (loadDataset evalDatasetFile) batchSize
    runOnMultiGpus padTokenId true whichModel experiment verbose
  (pre ++ r.1, r.2)

/-- `_train_impl`: builds the random-order train loader and sequential
validation loader, the masked cross-entropy loss wrapper, the `AdamW`
optimizer, creates the scratch directory
`/tmp/{uuid.uuid4().hex[:30]}/` (`os.makedirs(..., exist_ok=True)`), and
hands the external training engine the early-stopping configuration:
`patience=3`, evaluation loader key `'val'`, evaluator key `'macro-f1'`, the
macro-F1 evaluator built from `train_dataset.I2L`, and checkpoint file
`f'{base_es_path}/temp.es.weights'`.  `uuidHex` is the value of
`uuid.uuid4().hex` (external randomness).  Nothing is returned: only effects. -/
def trainImpl (self : SystemState) (trainDataset valDataset : Dataset)
    (lr : Rat) (batchSize : Nat) (gradAccumulationSteps : Nat)
    (runOnMultiGpus : Bool) (padValue : Int) (uuidHex : String)
    (verbose : Bool) : List Effect :=
  let basePath := "/tmp/" ++ strTake uuidHex 30 ++ "/"
  [Effect.buildLoader true batchSize padValue,
   Effect.buildLoader false batchSize padValue,
   Effect.mkLossWrapper,
   Effect.mkOptimizer lr,
   Effect.makeDirs basePath true,
   Effect.trainingRun
     { lr := lr
       batchSize := batchSize
       gradAccumulationSteps := gradAccumulationSteps
       multiGpus := runOnMultiGpus
       patience := 3
       evalLoaderKey := "val"
       evaluatorKey := "macro-f1"
       evaluatorI2L := trainDataset.i2l
       checkpointPath := basePath ++ "/temp.es.weights"
       verbose := verbose }]

/-- The default value of `train`'s `seed` parameter (`seed=0`). -/
def trainDefaultSeed : Int := 0

/-- `train`: seeds the global generator (`torch.manual_seed(seed)`), builds
the tokenizer from the stored pretrained name, builds the train and
validation datasets from the files, and delegates to `_train_impl` with the
tokenizer's `pad_token_id`.  Returns the effect trace; no value. -/
def train (self : SystemState) (loadDataset : String → Dataset) (padTokenId : Int)
    (trainDatasetFile valDatasetFile : String) (lr : Rat) (batchSize : Nat)
    (gradAccumulationSteps : Nat) (runOnMultiGpus : Bool) (uuidHex : String)
    (verbose : Bool) (seed : Int) : List Effect :=
  Effect.manualSeed seed ::
  Effect.buildTokenizer self.pretrainedName ::
  Effect.buildDataset trainDatasetFile ::
  Effect.buildDataset valDatasetFile ::
  trainImpl self (loadDataset trainDatasetFile) (loadDataset valDatasetFile)
    lr batchSize gradAccumulationSteps runOnMultiGpus padTokenId uuidHex verbose

/-- `save_model_state`: persists the model parameters to `path`. -/
def save_model_state (self : SystemState) (path : String) : List Effect :=
  [Effect.saveState path]

/-- `tune`'s learning-rate grid `lrs = [5e-5, 3e-5, 2e-5]`. -/
def lrs : List Rat := [5 / 100000, 3 / 100000, 2 / 100000]

/-- `tune`'s dropout grid `dp = [0, 0.1, 0.2]`. -/
def dpGrid : List Rat := [0, 1 / 10, 2 / 10]

/-- `tune`'s accumulation-step grid `grad_accumulation_steps = [2, 4]`. -/
def gasGrid : List Nat := [2, 4]

/-- `tune`'s fixed `batch_size = 8`. -/
def tuneBatchSize : Nat := 8

/-- A hyperparameter configuration of the sweep:
(learning rate, dropout, accumulation steps). -/
abbrev TuneCfg := Rat × Rat × Nat

/-- `params = list(product(lrs, dp, grad_accumulation_steps))`:
the Cartesian grid in `itertools.product` order. -/
def tuneParams : List TuneCfg :=
  lrs.flatMap (fun lr => dpGrid.flatMap (fun d => gasGrid.map (fun g => (lr, d, g))))

/-- One iteration of `tune`'s sweep over configuration `cfg`:
`torch.manual_seed(0)`, construct a fresh `NERBERTSystemWrapper` with
`{'dp': dp}`, `_train_impl` on the shared datasets, `_evaluate_impl` with
`report=False`, `which_model=-1`, `experiment=-1`, `verbose=False`, and record
`[current_results['macro-f1'].score, (lr, dp, grad_accumulation_steps)]`. -/
def tuneIteration (pretrainedName : String) (cudaAvailable : Bool) (ex : Externals)
    (trainDataset valDataset : Dataset) (runOnMultiGpus : Bool) (padTokenId : Int)
    (uuidHex : String) (cfg : TuneCfg) : List Effect × (Rat × TuneCfg) :=
  let wrapper := mkSystem pretrainedName cudaAvailable
  let trainEffs := trainImpl wrapper trainDataset valDataset cfg.1 tuneBatchSize
    cfg.2.2 runOnMultiGpus padTokenId uuidHex true
  let evalRun := evaluateImpl wrapper ex valDataset tuneBatchSize runOnMultiGpus
    padTokenId false (-1) (-1) false
  let score := match evalRun.2 with
    | Except.ok r => r.macroF1
    | Except.error _ => 0
  (Effect.manualSeed 0 :: Effect.constructWrapper pretrainedName cfg.2.1 ::
     (trainEffs ++ evalRun.1),
   (score, cfg))

/-- `tune`: builds the tokenizer and the two datasets once, then folds the
sweep over `tuneParams`, accumulating the effect trace and the result list in
iteration order.  `exOf`/`uuidOf` supply each iteration's external outcomes
and scratch-directory randomness (each iteration trains a fresh wrapper). -/
def tune (pretrainedName : String) (cudaAvailable : Bool) (exOf : Nat → Externals)
    (loadDataset : String → Dataset) (padTokenId : Int)
    (trainDatasetFile valDatasetFile : String) (runOnMultiGpus : Bool)
    (uuidOf : Nat → String) : List Effect × List (Rat × TuneCfg) :=
  let pre := [Effect.buildTokenizer pretrainedName,
              Effect.buildDataset trainDatasetFile,
              Effect.buildDataset valDatasetFile]
  let trainDataset := loadDataset trainDatasetFile
  let valDataset := loadDataset valDatasetFile
  tuneParams.enum.foldl
    (fun acc p =>
      let it := tuneIteration pretrainedName cudaAvailable (exOf p.1)
        trainDataset valDataset runOnMultiGpus padTokenId (uuidOf p.1) p.2
      (acc.1 ++ it.1, acc.2 ++ [it.2]))
    (pre, [])

/-- Outcome of an early-stopped training run: how many evaluation rounds were
executed, the best validation score seen among them (the score of the model
state restored at the end), and whether the run stopped early. -/
structure EsOut where
  rounds : Nat
  best : Rat
  stopped : Bool
deriving DecidableEq, Repr

/-- Modelled from the spec: the external training engine's early-stopping
loop (`pw.System.train` with `EarlyStoppingCriterionCallback`), whose code is
not part of this repository's sources.  Per the spec, each evaluation round
produces a validation macro-F1 score; an improving round checkpoints the
model state and resets the non-improvement counter; after `patience`
consecutive non-improving rounds the loop stops; the best-scoring state is
restored at the end regardless of where training stopped.  `best` is the best
score so far, `bad` the current count of consecutive non-improving rounds,
and the list holds the scores of the remaining rounds (an exhausted list is a
run that ends without the criterion firing). -/
def esRun (patience : Nat) (best : Rat) (bad : Nat) : List Rat → EsOut
  | [] => { rounds := 0, best := best, stopped := false }
  | s :: rest =>
    if best < s then
      let o := esRun patience s 0 rest
      { rounds := o.rounds + 1, best := o.best, stopped := o.stopped }
    else if patience ≤ bad + 1 then
      { rounds := 1, best := best, stopped := true }
    else
      let o := esRun patience best (bad + 1) rest
      { rounds := o.rounds + 1, best := o.best, stopped := o.stopped }

/-- Effects that delete a file-system entry (`os`-level removal).  The
wrapper never performs one. -/
def isRemoval : Effect → Bool
  | Effect.removeDir _ => true
  | Effect.removeFile _ => true
  | _ => false

/-- A trace frees of any file-system removal. -/
def removalFree (t : List Effect) : Prop :=
  t.all (fun e => !isRemoval e) = true

/-- Recognises a report-file write effect. -/
def isFileWrite : Effect → Bool
  | Effect.fileWrite _ _ _ => true
  | _ => false

/-- Recognises an `os.makedirs` effect. -/
def isMakeDirs : Effect → Bool
  | Effect.makeDirs _ _ => true
  | _ => false

/-- Effects `_evaluate_impl` emits outside the per-batch report loop. -/
def evalScaffold : Effect → Bool
  | Effect.buildLoader _ _ _ => true
  | Effect.buildEvaluators _ => true
  | Effect.printOut _ => true
  | Effect.printSetDiff => true
  | Effect.fileWrite _ _ _ => true
  | Effect.evalMetrics _ _ => true
  | _ => false

/-- Lowercase hexadecimal digit, the alphabet of `uuid.uuid4().hex`. -/
def isHexCh (c : Char) : Bool :=
  c.isDigit || ('a' ≤ c && c ≤ 'f')

/-- Concrete wrapper state (CPU construction) used to instantiate theorems. -/
def wSys : SystemState := mkSystem "nlpaueb/bert-base-greek-uncased-v1" false

/-- Concrete wrapper state (CUDA construction) used to instantiate theorems. -/
def wSysCuda : SystemState := mkSystem "nlpaueb/bert-base-greek-uncased-v1" true

/-- Concrete externals with an empty logit stream. -/
def wEx : Externals :=
  { logitsOf := fun _ => []
    classReport := fun _ _ => "report"
    runEval := fun _ _ => ⟨1, 1, 1, 1, 1, 1⟩ }

/-- Concrete externals producing two logit rows of width 17 per batch. -/
def wExB : Externals :=
  { logitsOf := fun _ => List.replicate 34 0
    classReport := fun _ _ => "report"
    runEval := fun _ _ => ⟨1, 1, 1, 1, 1, 1⟩ }

/-- Concrete dataset loader: one label, no batches. -/
def wLoad : String → Dataset := fun _ => { i2l := ["O"], batches := [] }

/-- Concrete dataset loader: one label and a single two-position batch whose
second position carries the ignore sentinel. -/
def wLoadB : String → Dataset :=
  fun _ => { i2l := ["O"], batches := [{ target := [0, -1], input := [7, 7] }] }

/-- Every effect of the report batch loop is a device move of the target
tensor to `cuda:0`, a batch prediction, or a reshape to width 17. -/
theorem reportLoop_mem (ex : Externals) (bs : List Batch) (e : Effect)
    (he : e ∈ (reportLoop ex bs).1) :
    e = Effect.toDevice "target" (Device.cuda 0) ∨ e = Effect.predictBatch ∨
      e = Effect.viewReshape 17 := by
  induction bs with
  | nil => simp [reportLoop] at he
  | cons b rest ih =>
    rw [reportLoop] at he
    rcases hv : pyView (ex.logitsOf b) 17 with msg | rows
    · rw [hv] at he
      simpa using he
    · rw [hv] at he
      rcases hr : reportLoop ex rest with ⟨effs2, r⟩
      rw [hr] at he
      rw [hr] at ih
      cases r with
      | error msg =>
        simp only [List.mem_append, List.mem_cons, List.not_mem_nil, or_false] at he
        rcases he with he | he
        · tauto
        · exact ih he
      | ok pairs2 =>
        simp only [List.mem_append, List.mem_cons, List.not_mem_nil, or_false] at he
        rcases he with he | he
        · tauto
        · exact ih he

/-- With at least one batch, the report loop does move a target tensor to
`cuda:0` and does reshape logits to width 17 (the loop is not vacuous). -/
theorem reportLoop_head (ex : Externals) (b : Batch) (rest : List Batch) :
    Effect.toDevice "target" (Device.cuda 0) ∈ (reportLoop ex (b :: rest)).1 ∧
      Effect.viewReshape 17 ∈ (reportLoop ex (b :: rest)).1 := by
  rw [reportLoop]
  rcases hv : pyView (ex.logitsOf b) 17 with msg | rows
  · simp
  · rcases hr : reportLoop ex rest with ⟨effs2, r⟩
    cases r <;> simp

/-- Every effect of `_evaluate_impl` comes from the report batch loop or is
part of the fixed scaffold (loader, evaluators, prints, file write, final
metric evaluation). -/
theorem evaluateImpl_mem (self : SystemState) (ex : Externals) (ds : Dataset)
    (batchSize : Nat) (multi : Bool) (pad : Int) (rep : Bool) (wm exp : Int)
    (v : Bool) (e : Effect)
    (he : e ∈ (evaluateImpl self ex ds batchSize multi pad rep wm exp v).1) :
    e ∈ (reportLoop ex ds.batches).1 ∨ evalScaffold e = true := by
  cases rep with
  | false =>
    simp only [evaluateImpl, List.mem_append, List.mem_cons, List.not_mem_nil,
      or_false, or_assoc] at he
    rcases he with he | he | he
    · right; subst he; rfl
    · right; subst he; rfl
    · right; subst he; rfl
  | true =>
    cases hr : (reportLoop ex ds.batches).2 with
    | error msg =>
      simp only [evaluateImpl, hr, List.mem_append, List.mem_cons,
        List.not_mem_nil, or_false, or_assoc] at he
      rcases he with he | he | he
      · right; subst he; rfl
      · right; subst he; rfl
      · left; exact he
    | ok pairs =>
      cases hm1 : mapI2L ds.i2l (pairs.map Prod.fst) with
      | error msg =>
        simp only [evaluateImpl, hr, hm1, List.mem_append, List.mem_cons,
          List.not_mem_nil, or_false, or_assoc] at he
        rcases he with he | he | he
        · right; subst he; rfl
        · right; subst he; rfl
        · left; exact he
      | ok finalLabels =>
        cases hm2 : mapI2L ds.i2l (pairs.map Prod.snd) with
        | error msg =>
          simp only [evaluateImpl, hr, hm1, hm2, List.mem_append, List.mem_cons,
            List.not_mem_nil, or_false, or_assoc] at he
          rcases he with he | he | he
          · right; subst he; rfl
          · right; subst he; rfl
          · left; exact he
        | ok finalPredictions =>
          cases hd : pyListGet reportDirs wm with
          | error msg =>
            simp only [evaluateImpl, hr, hm1, hm2, hd, List.mem_append,
              List.mem_cons, List.not_mem_nil, or_false, or_assoc] at he
            rcases he with he | he | he | he | he
            · right; subst he; rfl
            · right; subst he; rfl
            · left; exact he
            · right; subst he; rfl
            · right; subst he; rfl
          | ok dir =>
            simp only [evaluateImpl, hr, hm1, hm2, hd, List.mem_append,
              List.mem_cons, List.not_mem_nil, or_false, or_assoc] at he
            rcases he with he | he | he | he | he | he | he
            · right; subst he; rfl
            · right; subst he; rfl
            · left; exact he
            · right; subst he; rfl
            · right; subst he; rfl
            · right; subst he; rfl
            · right; subst he; rfl

/-- Selecting the report subdirectory with an index at least 3 or at most -4
raises `IndexError`: only `{-3,...,2}` address the 3-element list. -/
theorem pyListGet_reportDirs_oob (wm : Int) (h : 3 ≤ wm ∨ wm ≤ -4) :
    pyListGet reportDirs wm = Except.error "list index out of range" := by
  have hlen : (reportDirs : List String).length = 3 := rfl
  rw [pyListGet, dif_neg]
  rw [hlen]
  intro hc
  rcases hc with ⟨h0, h1⟩
  rcases h with h | h
  · have hnn : ¬ wm < 0 := by omega
    rw [pyEffIdx, if_neg hnn] at h1
    omega
  · have hn : wm < 0 := by omega
    rw [pyEffIdx, if_pos hn] at h0
    omega

/-- `_evaluate_impl` with report emission and an out-of-range subdirectory
selector returns an error and emits no file write. -/
theorem evaluateImpl_oob (self : SystemState) (ex : Externals) (ds : Dataset)
    (batchSize : Nat) (multi : Bool) (pad : Int) (wm exp : Int) (v : Bool)
    (h : 3 ≤ wm ∨ wm ≤ -4) :
    (∃ msg, (evaluateImpl self ex ds batchSize multi pad true wm exp v).2 =
        Except.error msg) ∧
      ∀ p m c, Effect.fileWrite p m c ∉
        (evaluateImpl self ex ds batchSize multi pad true wm exp v).1 := by
  have hpy := pyListGet_reportDirs_oob wm h
  constructor
  · cases hr : (reportLoop ex ds.batches).2 with
    | error msg => exact ⟨msg, by simp only [evaluateImpl, hr]⟩
    | ok pairs =>
      cases hm1 : mapI2L ds.i2l (pairs.map Prod.fst) with
      | error msg => exact ⟨msg, by simp only [evaluateImpl, hr, hm1]⟩
      | ok finalLabels =>
        cases hm2 : mapI2L ds.i2l (pairs.map Prod.snd) with
        | error msg => exact ⟨msg, by simp only [evaluateImpl, hr, hm1, hm2]⟩
        | ok finalPredictions =>
          exact ⟨"list index out of range",
            by simp only [evaluateImpl, hr, hm1, hm2, hpy]⟩
  · intro p m c hmem
    have := evaluateImpl_mem self ex ds batchSize multi pad true wm exp v _ hmem
    rcases this with hin | hin
    · rcases reportLoop_mem ex ds.batches _ hin with h1 | h1 | h1 <;> cases h1
    · -- a fileWrite is scaffold, so rule it out by the branch structure
      cases hr : (reportLoop ex ds.batches).2 with
      | error msg =>
        simp only [evaluateImpl, hr, List.mem_append, List.mem_cons,
          List.not_mem_nil, or_false, or_assoc] at hmem
        rcases hmem with hm | hm | hm
        · cases hm
        · cases hm
        · rcases reportLoop_mem ex ds.batches _ hm with h1 | h1 | h1 <;> cases h1
      | ok pairs =>
        cases hm1 : mapI2L ds.i2l (pairs.map Prod.fst) with
        | error msg =>
          simp only [evaluateImpl, hr, hm1, List.mem_append, List.mem_cons,
            List.not_mem_nil, or_false, or_assoc] at hmem
          rcases hmem with hm | hm | hm
          · cases hm
          · cases hm
          · rcases reportLoop_mem ex ds.batches _ hm with h1 | h1 | h1 <;> cases h1
        | ok finalLabels =>
          cases hm2 : mapI2L ds.i2l (pairs.map Prod.snd) with
          | error msg =>
            simp only [evaluateImpl, hr, hm1, hm2, List.mem_append,
              List.mem_cons, List.not_mem_nil, or_false, or_assoc] at hmem
            rcases hmem with hm | hm | hm
            · cases hm
            · cases hm
            · rcases reportLoop_mem ex ds.batches _ hm with h1 | h1 | h1 <;> cases h1
          | ok finalPredictions =>
            simp only [evaluateImpl, hr, hm1, hm2, hpy, List.mem_append,
              List.mem_cons, List.not_mem_nil, or_false, or_assoc] at hmem
            rcases hmem with hm | hm | hm | hm | hm
            · cases hm
            · cases hm
            · rcases reportLoop_mem ex ds.batches _ hm with h1 | h1 | h1 <;> cases h1
            · cases hm
            · cases hm

/-- `evaluate` prepends the tokenizer and dataset constructions to the trace
of `_evaluate_impl` (called with `report := true`) and forwards its result. -/
theorem evaluate_eq (self : SystemState) (ex : Externals)
    (loadDataset : String → Dataset) (pad : Int) (file : String)
    (batchSize : Nat) (multi : Bool) (wm exp : Int) (v : Bool) :
    evaluate self ex loadDataset pad file batchSize multi wm exp v =
      ([Effect.buildTokenizer self.pretrainedName, Effect.buildDataset file] ++
         (evaluateImpl self ex (loadDataset file) batchSize multi pad true wm exp v).1,
       (evaluateImpl self ex (loadDataset file) batchSize multi pad true wm exp v).2) :=
  rfl

/-- Unfolds the sweep fold of `tune` into the concatenated iteration traces
and the per-iteration result list. -/
theorem sweepFold_eq {α β γ : Type} (f : α → List β × γ) :
    ∀ (l : List α) (acc1 : List β) (acc2 : List γ),
      l.foldl (fun acc p => (acc.1 ++ (f p).1, acc.2 ++ [(f p).2])) (acc1, acc2) =
        (acc1 ++ l.flatMap (fun p => (f p).1), acc2 ++ l.map (fun p => (f p).2))
  | [], acc1, acc2 => by simp
  | x :: l, acc1, acc2 => by
    rw [List.foldl_cons, sweepFold_eq f l]
    simp

/-- `tune` as the three shared constructions followed by the concatenation of
the 18 iteration traces, paired with the iteration results in order. -/
theorem tune_eq (name : String) (cuda : Bool) (exOf : Nat → Externals)
    (loadDataset : String → Dataset) (pad : Int) (tf vf : String) (multi : Bool)
    (uuidOf : Nat → String) :
    tune name cuda exOf loadDataset pad tf vf multi uuidOf =
      ([Effect.buildTokenizer name, Effect.buildDataset tf, Effect.buildDataset vf] ++
         tuneParams.enum.flatMap (fun p =>
           (tuneIteration name cuda (exOf p.1) (loadDataset tf) (loadDataset vf)
             multi pad (uuidOf p.1) p.2).1),
       tuneParams.enum.map (fun p =>
         (tuneIteration name cuda (exOf p.1) (loadDataset tf) (loadDataset vf)
           multi pad (uuidOf p.1) p.2).2)) := by
  unfold tune
  rw [sweepFold_eq (fun p =>
    tuneIteration name cuda (exOf p.1) (loadDataset tf) (loadDataset vf)
      multi pad (uuidOf p.1) p.2) tuneParams.enum]
  simp

/-- The effect trace of one sweep iteration: reseed to 0, fresh wrapper
construction, the training effects, then the report-free evaluation
effects. -/
theorem tuneIteration_fst (name : String) (cuda : Bool) (ex : Externals)
    (tds vds : Dataset) (multi : Bool) (pad : Int) (uuidHex : String)
    (cfg : TuneCfg) :
    (tuneIteration name cuda ex tds vds multi pad uuidHex cfg).1 =
      Effect.manualSeed 0 :: Effect.constructWrapper name cfg.2.1 ::
        (trainImpl (mkSystem name cuda) tds vds cfg.1 tuneBatchSize cfg.2.2
           multi pad uuidHex true ++
         [Effect.buildLoader false tuneBatchSize pad,
          Effect.buildEvaluators vds.i2l,
          Effect.evalMetrics multi false]) :=
  rfl

/-- The result recorded by one sweep iteration: that configuration's macro-F1
score paired with the configuration tuple. -/
theorem tuneIteration_snd (name : String) (cuda : Bool) (ex : Externals)
    (tds vds : Dataset) (multi : Bool) (pad : Int) (uuidHex : String)
    (cfg : TuneCfg) :
    (tuneIteration name cuda ex tds vds multi pad uuidHex cfg).2 =
      ((ex.runEval multi false).macroF1, cfg) :=
  rfl

/-- Unfolding equation of `esRun` on a round score `s` followed by `l`. -/
theorem esRun_cons (p : Nat) (best : Rat) (bad : Nat) (s : Rat) (l : List Rat) :
    esRun p best bad (s :: l) =
      if best < s then
        { rounds := (esRun p s 0 l).rounds + 1, best := (esRun p s 0 l).best,
          stopped := (esRun p s 0 l).stopped }
      else if p ≤ bad + 1 then
        { rounds := 1, best := best, stopped := true }
      else
        { rounds := (esRun p best (bad + 1) l).rounds + 1,
          best := (esRun p best (bad + 1) l).best,
          stopped := (esRun p best (bad + 1) l).stopped } :=
  rfl

/-- When the next `patience - bad` rounds all fail to improve on the current
best, the early-stopping loop stops right there: it executes exactly those
rounds, never touches the remaining ones, and keeps the current best. -/
theorem esRun_stops (p : Nat) :
    ∀ (window : List Rat), window ≠ [] →
      ∀ (rest : List Rat) (best : Rat) (bad : Nat), window.length + bad = p →
        (∀ x ∈ window, x ≤ best) →
        esRun p best bad (window ++ rest) =
          { rounds := window.length, best := best, stopped := true }
  | [], hne, _, _, _, _, _ => absurd rfl hne
  | s :: w2, _, rest, best, bad, hlen, hle => by
    have hs : ¬ best < s := not_lt.mpr (hle s (List.mem_cons_self s w2))
    cases w2 with
    | nil =>
      have hp : p ≤ bad + 1 := by
        simp only [List.length_cons, List.length_nil] at hlen
        omega
      simp [esRun, hs, hp]
    | cons t w3 =>
      have hp : ¬ p ≤ bad + 1 := by
        simp only [List.length_cons] at hlen
        omega
      have ih := esRun_stops p (t :: w3) (by simp) rest best (bad + 1)
        (by simp only [List.length_cons] at hlen ⊢; omega)
        (fun x hx => hle x (List.mem_cons_of_mem s hx))
      rw [List.cons_append, esRun_cons, if_neg hs, if_neg hp, ih]
      simp

/-- The score of the state restored at the end of an early-stopped run is the
best achieved: at least the incoming best, attained at an executed round (or
the incoming checkpoint), and at least every executed round's score. -/
theorem esRun_best (p : Nat) :
    ∀ (l : List Rat) (best : Rat) (bad : Nat),
      best ≤ (esRun p best bad l).best ∧
      ((esRun p best bad l).best = best ∨ (esRun p best bad l).best ∈ l) ∧
      ∀ x ∈ l.take (esRun p best bad l).rounds, x ≤ (esRun p best bad l).best
  | [], best, bad => by
    refine ⟨le_refl _, Or.inl rfl, ?_⟩
    intro x hx
    simp [esRun] at hx
  | s :: rest, best, bad => by
    by_cases hs : best < s
    · have ih := esRun_best p rest s 0
      have hE : esRun p best bad (s :: rest) =
          { rounds := (esRun p s 0 rest).rounds + 1,
            best := (esRun p s 0 rest).best,
            stopped := (esRun p s 0 rest).stopped } := by
        rw [esRun_cons, if_pos hs]
      rw [hE]
      refine ⟨le_of_lt (lt_of_lt_of_le hs ih.1), ?_, ?_⟩
      · show (esRun p s 0 rest).best = best ∨ (esRun p s 0 rest).best ∈ s :: rest
        rcases ih.2.1 with h | h
        · exact Or.inr (by rw [h]; exact List.mem_cons_self s rest)
        · exact Or.inr (List.mem_cons_of_mem s h)
      · show ∀ x ∈ (s :: rest).take ((esRun p s 0 rest).rounds + 1),
          x ≤ (esRun p s 0 rest).best
        intro x hx
        rw [List.take_succ_cons] at hx
        rcases List.mem_cons.mp hx with h | h
        · rw [h]; exact ih.1
        · exact ih.2.2 x h
    · by_cases hp : p ≤ bad + 1
      · have hE : esRun p best bad (s :: rest) =
            { rounds := 1, best := best, stopped := true } := by
          rw [esRun_cons, if_neg hs, if_pos hp]
        rw [hE]
        refine ⟨le_refl _, Or.inl rfl, ?_⟩
        show ∀ x ∈ (s :: rest).take 1, x ≤ best
        intro x hx
        rw [List.take_succ_cons, List.take_zero] at hx
        rcases List.mem_cons.mp hx with h | h
        · rw [h]; exact not_lt.mp hs
        · simp at h
      · have ih := esRun_best p rest best (bad + 1)
        have hE : esRun p best bad (s :: rest) =
            { rounds := (esRun p best (bad + 1) rest).rounds + 1,
              best := (esRun p best (bad + 1) rest).best,
              stopped := (esRun p best (bad + 1) rest).stopped } := by
          rw [esRun_cons, if_neg hs, if_neg hp]
        rw [hE]
        refine ⟨ih.1, ?_, ?_⟩
        · show (esRun p best (bad + 1) rest).best = best ∨
            (esRun p best (bad + 1) rest).best ∈ s :: rest
          rcases ih.2.1 with h | h
          · exact Or.inl h
          · exact Or.inr (List.mem_cons_of_mem s h)
        · show ∀ x ∈ (s :: rest).take ((esRun p best (bad + 1) rest).rounds + 1),
            x ≤ (esRun p best (bad + 1) rest).best
          intro x hx
          rw [List.take_succ_cons] at hx
          rcases List.mem_cons.mp hx with h | h
          · rw [h]; exact le_trans (not_lt.mp hs) ih.1
          · exact ih.2.2 x h

/-- A Python slice `s[:n]` of a string of length at least `n` has length
exactly `n`. -/
theorem strTake_length (s : String) (n : Nat) (h : n ≤ s.length) :
    (strTake s n).length = n := by
  have hl : s.length = s.data.length := rfl
  show (s.data.take n).length = n
  rw [List.length_take]
  omega

/-- A slice of a string of hexadecimal characters is hexadecimal. -/
theorem strTake_all_hex (s : String) (n : Nat) (h : s.data.all isHexCh = true) :
    (strTake s n).data.all isHexCh = true := by
  have hsub := (List.take_sublist n s.data).subset
  rw [List.all_eq_true] at h ⊢
  intro x hx
  exact h x (hsub hx)

/-- Distinct directory names under `/tmp/` give distinct scratch paths. -/
theorem tmpBasePath_inj (a b : String) (hne : a ≠ b) :
    "/tmp/" ++ a ++ "/" ≠ "/tmp/" ++ b ++ "/" := by
  intro h
  apply hne
  have hd : ("/tmp/" ++ a ++ "/").data = ("/tmp/" ++ b ++ "/").data := by rw [h]
  simp only [String.data_append] at hd
  rw [List.append_assoc, List.append_assoc] at hd
  have h2 : a.data = b.data := List.append_cancel_right (List.append_cancel_left hd)
  cases a
  cases b
  simp only at h2
  simp [h2]

/-- The report batch loop's effects all appear in the trace of
`_evaluate_impl` with report emission enabled, on every branch. -/
theorem evaluateImpl_loop_sub (self : SystemState) (ex : Externals) (ds : Dataset)
    (batchSize : Nat) (multi : Bool) (pad : Int) (wm exp : Int) (v : Bool)
    (e : Effect) (he : e ∈ (reportLoop ex ds.batches).1) :
    e ∈ (evaluateImpl self ex ds batchSize multi pad true wm exp v).1 := by
  cases hr : (reportLoop ex ds.batches).2 with
  | error msg =>
    simp only [evaluateImpl, hr, List.mem_append]
    exact Or.inr he
  | ok pairs =>
    cases hm1 : mapI2L ds.i2l (pairs.map Prod.fst) with
    | error msg =>
      simp only [evaluateImpl, hr, hm1, List.mem_append]
      exact Or.inr he
    | ok finalLabels =>
      cases hm2 : mapI2L ds.i2l (pairs.map Prod.snd) with
      | error msg =>
        simp only [evaluateImpl, hr, hm1, hm2, List.mem_append]
        exact Or.inr he
      | ok finalPredictions =>
        cases hd : pyListGet reportDirs wm with
        | error msg =>
          simp only [evaluateImpl, hr, hm1, hm2, hd, List.mem_append]
          exact Or.inl (Or.inr he)
        | ok dir =>
          simp only [evaluateImpl, hr, hm1, hm2, hd, List.mem_append]
          exact Or.inl (Or.inl (Or.inr he))

/-- `_train_impl` performs no file-system removal. -/
theorem trainImpl_removalFree (self : SystemState) (tds vds : Dataset) (lr : Rat)
    (batchSize gas : Nat) (multi : Bool) (pad : Int) (uuidHex : String) (v : Bool) :
    removalFree (trainImpl self tds vds lr batchSize gas multi pad uuidHex v) := by
  simp [trainImpl, removalFree, isRemoval]

/-- `train` performs no file-system removal. -/
theorem train_removalFree (self : SystemState) (loadDataset : String → Dataset)
    (pad : Int) (tf vf : String) (lr : Rat) (batchSize gas : Nat) (multi : Bool)
    (uuidHex : String) (v : Bool) (seed : Int) :
    removalFree (train self loadDataset pad tf vf lr batchSize gas multi uuidHex v seed) := by
  simp [train, trainImpl, removalFree, isRemoval]

/-- `evaluate` performs no file-system removal on any branch. -/
theorem evaluate_removalFree (self : SystemState) (ex : Externals)
    (loadDataset : String → Dataset) (pad : Int) (file : String)
    (batchSize : Nat) (multi : Bool) (wm exp : Int) (v : Bool) :
    removalFree (evaluate self ex loadDataset pad file batchSize multi wm exp v).1 := by
  rw [removalFree, List.all_eq_true]
  intro e he
  rw [evaluate_eq] at he
  rcases List.mem_append.mp he with h | h
  · rcases List.mem_cons.mp h with h1 | h1
    · rw [h1]; rfl
    · rcases List.mem_cons.mp h1 with h2 | h2
      · rw [h2]; rfl
      · simp at h2
  · rcases evaluateImpl_mem self ex (loadDataset file) batchSize multi pad true
      wm exp v e h with h1 | h1
    · rcases reportLoop_mem ex (loadDataset file).batches e h1 with h2 | h2 | h2 <;>
        (rw [h2]; rfl)
    · cases e <;> simp_all [evalScaffold, isRemoval]

/-- One sweep iteration of `tune` performs no file-system removal. -/
theorem tuneIteration_removalFree (name : String) (cuda : Bool) (ex : Externals)
    (tds vds : Dataset) (multi : Bool) (pad : Int) (uuidHex : String)
    (cfg : TuneCfg) :
    removalFree (tuneIteration name cuda ex tds vds multi pad uuidHex cfg).1 := by
  rw [tuneIteration_fst]
  simp [trainImpl, removalFree, isRemoval]

/-- `tune` performs no file-system removal. -/
theorem tune_removalFree (name : String) (cuda : Bool) (exOf : Nat → Externals)
    (loadDataset : String → Dataset) (pad : Int) (tf vf : String) (multi : Bool)
    (uuidOf : Nat → String) :
    removalFree (tune name cuda exOf loadDataset pad tf vf multi uuidOf).1 := by
  rw [removalFree, List.all_eq_true]
  intro e he
  rw [tune_eq] at he
  rcases List.mem_append.mp he with h | h
  · rcases List.mem_cons.mp h with h1 | h1
    · rw [h1]; rfl
    · rcases List.mem_cons.mp h1 with h2 | h2
      · rw [h2]; rfl
      · rcases List.mem_cons.mp h2 with h3 | h3
        · rw [h3]; rfl
        · simp at h3
  · obtain ⟨p, hp, hmem⟩ := List.mem_flatMap.mp h
    have hfree := tuneIteration_removalFree name cuda (exOf p.1) (loadDataset tf)
      (loadDataset vf) multi pad (uuidOf p.1) p.2
    rw [removalFree, List.all_eq_true] at hfree
    exact hfree e hmem

/-- `save_model_state` performs no file-system removal. -/
theorem save_model_state_removalFree (self : SystemState) (path : String) :
    removalFree (save_model_state self path) := by
  simp [save_model_state, removalFree, isRemoval]

/-- Grid membership: `tuneParams` is exactly the Cartesian product of the
three declared grids. -/
theorem tuneParams_mem (c : TuneCfg) :
    c ∈ tuneParams ↔ c.1 ∈ lrs ∧ c.2.1 ∈ dpGrid ∧ c.2.2 ∈ gasGrid := by
  simp only [tuneParams, List.mem_flatMap, List.mem_map]
  constructor
  · rintro ⟨lr, hlr, d, hd, g, hg, rfl⟩
    exact ⟨hlr, hd, hg⟩
  · rintro ⟨h1, h2, h3⟩
    exact ⟨c.1, h1, c.2.1, h2, c.2.2, h3, rfl⟩

/-- C1 (amended): for every `evaluate` call (report emission enabled) whose
report-subdirectory selector is at least 3 or at most -4, the subdirectory
lookup itself raises `IndexError: list index out of range`, the call fails,
and no report file is written.  (Selectors -1, -2, -3 are NOT errors: Python
negative indexing selects `greek_legal_v1`, `greek`, `greek_legal_v2`
respectively — see the counterexample.) -/
theorem evaluate_report_selector_out_of_range
    (self : SystemState) (ex : Externals) (loadDataset : String → Dataset)
    (pad : Int) (file : String) (batchSize : Nat) (multi : Bool) (wm exp : Int)
    (v : Bool) (h : 3 ≤ wm ∨ wm ≤ -4) :
    pyListGet reportDirs wm = Except.error "list index out of range" ∧
    (∃ msg, (evaluate self ex loadDataset pad file batchSize multi wm exp v).2 =
      Except.error msg) ∧
    ∀ p m c, Effect.fileWrite p m c ∉
      (evaluate self ex loadDataset pad file batchSize multi wm exp v).1 := by
  have himpl := evaluateImpl_oob self ex (loadDataset file) batchSize multi pad
    wm exp v h
  refine ⟨pyListGet_reportDirs_oob wm h, ?_, ?_⟩
  · rw [evaluate_eq]
    exact himpl.1
  · intro p m c hmem
    rw [evaluate_eq] at hmem
    rcases List.mem_append.mp hmem with h1 | h1
    · rcases List.mem_cons.mp h1 with h2 | h2
      · cases h2
      · rcases List.mem_cons.mp h2 with h3 | h3
        · cases h3
        · simp at h3
    · exact himpl.2 p m c h1

/-- C1 witness: at the concrete out-of-range selector 3 the lookup errors and
no file-write effect occurs. -/
theorem evaluate_report_selector_out_of_range_witness :
    pyListGet reportDirs 3 = Except.error "list index out of range" ∧
    Effect.fileWrite "reports/greek/report_1.txt" "w" "report" ∉
      (evaluate wSys wEx wLoad 0 "eval.txt" 4 false 3 1 true).1 :=
  ⟨(evaluate_report_selector_out_of_range wSys wEx wLoad 0 "eval.txt" 4 false 3 1
      true (Or.inl (by decide))).1,
   (evaluate_report_selector_out_of_range wSys wEx wLoad 0 "eval.txt" 4 false 3 1
      true (Or.inl (by decide))).2.2 "reports/greek/report_1.txt" "w" "report"⟩

/-- C1 counterexample: the selector -1 is outside `{0,1,2}`, yet the call does
not fail: Python negative indexing silently selects `greek_legal_v1` and the
report file is written there. -/
theorem evaluate_negative_selector_writes :
    (evaluate wSys wEx wLoad 0 "eval.txt" 4 false (-1) 5 true).2 =
      Except.ok ⟨1, 1, 1, 1, 1, 1⟩ ∧
    Effect.fileWrite "../NER/reports/greek_legal_v1/report_5.txt" "w" "report" ∈
      (evaluate wSys wEx wLoad 0 "eval.txt" 4 false (-1) 5 true).1 := by
  constructor
  · rfl
  · decide

/-- C2 (amended): with report emission enabled, selector in `{0,1,2}` and a
successfully computed report, the classification report text is written (in
truncating mode `'w'`, so an existing file at that exact path is overwritten)
to `../NER/reports/<model-variant>/report_<experiment>.txt` — with the
`../NER/` prefix, not to `reports/...` — where model-variant is
`greek_legal_v2` for 0, `greek` for 1 and `greek_legal_v1` for 2. -/
theorem evaluate_report_written_to_fixed_path
    (self : SystemState) (ex : Externals) (loadDataset : String → Dataset)
    (pad : Int) (file : String) (batchSize : Nat) (multi : Bool) (wm exp : Int)
    (v : Bool) (pairs : List (Int × Int))
    (finalLabels finalPredictions : List String)
    (hwm : wm = 0 ∨ wm = 1 ∨ wm = 2)
    (hl : (reportLoop ex (loadDataset file).batches).2 = Except.ok pairs)
    (hm1 : mapI2L (loadDataset file).i2l (pairs.map Prod.fst) =
      Except.ok finalLabels)
    (hm2 : mapI2L (loadDataset file).i2l (pairs.map Prod.snd) =
      Except.ok finalPredictions) :
    Effect.fileWrite (reportFilePath (reportDirs.getD wm.toNat "") exp) "w"
        (ex.classReport finalLabels finalPredictions) ∈
      (evaluate self ex loadDataset pad file batchSize multi wm exp v).1 ∧
    (evaluate self ex loadDataset pad file batchSize multi wm exp v).2 =
      Except.ok (ex.runEval multi v) ∧
    reportFilePath (reportDirs.getD wm.toNat "") exp =
      "../NER/reports/" ++ reportDirs.getD wm.toNat "" ++ "/report_" ++
        toString exp ++ ".txt" ∧
    (wm = 0 → reportDirs.getD wm.toNat "" = "greek_legal_v2") ∧
    (wm = 1 → reportDirs.getD wm.toNat "" = "greek") ∧
    (wm = 2 → reportDirs.getD wm.toNat "" = "greek_legal_v1") := by
  have hd : pyListGet reportDirs wm = Except.ok (reportDirs.getD wm.toNat "") := by
    rcases hwm with h | h | h <;> (subst h; rfl)
  refine ⟨?_, ?_, rfl, ?_, ?_, ?_⟩
  · rw [evaluate_eq]
    simp [evaluateImpl, hl, hm1, hm2, hd]
  · rw [evaluate_eq]
    simp only [evaluateImpl, hl, hm1, hm2, hd]
  · intro h; subst h; rfl
  · intro h; subst h; rfl
  · intro h; subst h; rfl

/-- C2 witness: a concrete one-batch evaluation with selector 0 and
experiment 1 writes the report to
`../NER/reports/greek_legal_v2/report_1.txt`. -/
theorem evaluate_report_written_to_fixed_path_witness :
    Effect.fileWrite (reportFilePath (reportDirs.getD (Int.toNat 0) "") 1) "w"
        (wExB.classReport ["O"] ["O"]) ∈
      (evaluate wSysCuda wExB wLoadB 0 "eval.txt" 2 false 0 1 true).1 :=
  (evaluate_report_written_to_fixed_path wSysCuda wExB wLoadB 0 "eval.txt" 2
    false 0 1 true [(0, 0)] ["O"] ["O"] (Or.inl rfl) (by rfl) (by rfl)
    (by rfl)).1

/-- C2 counterexample: at selector 0 and experiment 1 the only file write goes
to `../NER/reports/greek_legal_v2/report_1.txt`, which is not the path
`reports/greek_legal_v2/report_1.txt` stated by the claim. -/
theorem evaluate_report_path_counterexample :
    ((evaluate wSys wEx wLoad 0 "eval.txt" 4 false 0 1 true).1.filter isFileWrite) =
      [Effect.fileWrite "../NER/reports/greek_legal_v2/report_1.txt" "w" "report"] ∧
    "../NER/reports/greek_legal_v2/report_1.txt" ≠
      "reports/greek_legal_v2/report_1.txt" := by
  constructor
  · decide
  · decide

set_option maxHeartbeats 2000000 in
/-- C3: `tune` returns exactly 3 × 3 × 2 = 18 entries, in unsorted grid
order, one per distinct (lr, dropout, accumulation-steps) tuple of the fixed
grids, each pairing that configuration's macro-F1 score with the tuple, and
every training run of the sweep uses batch size 8. -/
theorem tune_grid_results (name : String) (cuda : Bool) (exOf : Nat → Externals)
    (loadDataset : String → Dataset) (pad : Int) (tf vf : String) (multi : Bool)
    (uuidOf : Nat → String) :
    (tune name cuda exOf loadDataset pad tf vf multi uuidOf).2.length = 18 ∧
    (tune name cuda exOf loadDataset pad tf vf multi uuidOf).2 =
      tuneParams.enum.map (fun p =>
        (((exOf p.1).runEval multi false).macroF1, p.2)) ∧
    ((tune name cuda exOf loadDataset pad tf vf multi uuidOf).2.map Prod.snd =
      tuneParams) ∧
    tuneParams.Nodup ∧
    (∀ c : TuneCfg, c ∈ tuneParams ↔
      c.1 ∈ lrs ∧ c.2.1 ∈ dpGrid ∧ c.2.2 ∈ gasGrid) ∧
    (∀ cfg : TrainRunConfig,
      Effect.trainingRun cfg ∈ (tune name cuda exOf loadDataset pad tf vf multi uuidOf).1 →
        cfg.batchSize = tuneBatchSize) ∧
    tuneBatchSize = 8 := by
  have hsnd : (tune name cuda exOf loadDataset pad tf vf multi uuidOf).2 =
      tuneParams.enum.map (fun p =>
        (((exOf p.1).runEval multi false).macroF1, p.2)) := by
    rw [tune_eq]
    exact List.map_congr_left (fun p hp => tuneIteration_snd name cuda (exOf p.1)
      (loadDataset tf) (loadDataset vf) multi pad (uuidOf p.1) p.2)
  have hnodup : tuneParams.Nodup := by
    simp [tuneParams, lrs, dpGrid, gasGrid, List.nodup_cons, List.mem_cons,
      Prod.mk.injEq]
    norm_num
  refine ⟨?_, hsnd, ?_, hnodup, tuneParams_mem, ?_, rfl⟩
  · rw [hsnd, List.length_map, List.enum_length]
    rfl
  · rw [hsnd, List.map_map]
    have : (Prod.snd ∘ fun p : Nat × TuneCfg =>
        (((exOf p.1).runEval multi false).macroF1, p.2)) = Prod.snd := rfl
    rw [this, List.enum_map_snd]
  · intro cfg hmem
    rw [tune_eq] at hmem
    rcases List.mem_append.mp hmem with h | h
    · simp at h
    · obtain ⟨p, hp, hin⟩ := List.mem_flatMap.mp h
      rw [tuneIteration_fst] at hin
      rcases List.mem_cons.mp hin with h1 | h1
      · cases h1
      rcases List.mem_cons.mp h1 with h2 | h2
      · cases h2
      rcases List.mem_append.mp h2 with h3 | h3
      · simp only [trainImpl, List.mem_cons, List.not_mem_nil, or_false] at h3
        rcases h3 with h4 | h4 | h4 | h4 | h4 | h4
        · cases h4
        · cases h4
        · cases h4
        · cases h4
        · cases h4
        · injection h4 with h5
          rw [h5]
      · simp at h3

/-- C3 witness: the sweep result facts at a concrete instantiation. -/
theorem tune_grid_results_witness :
    (tune "bert" false (fun _ => wEx) wLoad 0 "train.txt" "val.txt" false
      (fun _ => "u")).2.length = 18 ∧
    tuneParams.Nodup ∧ tuneBatchSize = 8 :=
  ⟨(tune_grid_results "bert" false (fun _ => wEx) wLoad 0 "train.txt" "val.txt"
      false (fun _ => "u")).1,
   (tune_grid_results "bert" false (fun _ => wEx) wLoad 0 "train.txt" "val.txt"
      false (fun _ => "u")).2.2.2.1,
   (tune_grid_results "bert" false (fun _ => wEx) wLoad 0 "train.txt" "val.txt"
      false (fun _ => "u")).2.2.2.2.2.2⟩

/-- C4: `_train_impl` configures the external training engine with
early-stopping patience 3 over the `'macro-f1'` evaluator on the `'val'`
loader, and (for the spec-modelled engine `esRun`) a run with patience 3
stops as soon as 3 consecutive evaluation rounds fail to improve the best
validation macro-F1, executing none of the remaining rounds; on every run —
stopped early or exhausted — the restored state's score is the best one seen:
at least the running best, attained at an executed round, and at least every
executed round's score.  `_train_impl` returns only its effect trace: the
model is updated in place. -/
theorem trainImpl_early_stopping (self : SystemState) (tds vds : Dataset)
    (lr : Rat) (batchSize gas : Nat) (multi : Bool) (pad : Int)
    (uuidHex : String) (v : Bool) :
    (∀ cfg : TrainRunConfig,
      Effect.trainingRun cfg ∈ trainImpl self tds vds lr batchSize gas multi pad uuidHex v →
        cfg.patience = 3 ∧ cfg.evalLoaderKey = "val" ∧ cfg.evaluatorKey = "macro-f1") ∧
    (∃ cfg : TrainRunConfig,
      Effect.trainingRun cfg ∈ trainImpl self tds vds lr batchSize gas multi pad uuidHex v) ∧
    (∀ (window rest : List Rat) (best : Rat), window.length = 3 →
      (∀ x ∈ window, x ≤ best) →
      esRun 3 best 0 (window ++ rest) =
        { rounds := 3, best := best, stopped := true }) ∧
    (∀ (scores : List Rat) (best : Rat) (bad : Nat),
      best ≤ (esRun 3 best bad scores).best ∧
      ((esRun 3 best bad scores).best = best ∨
        (esRun 3 best bad scores).best ∈ scores) ∧
      ∀ x ∈ scores.take (esRun 3 best bad scores).rounds,
        x ≤ (esRun 3 best bad scores).best) := by
  refine ⟨?_, ?_, ?_, fun scores best bad => esRun_best 3 scores best bad⟩
  · intro cfg hmem
    simp only [trainImpl, List.mem_cons, List.not_mem_nil, or_false] at hmem
    rcases hmem with h | h | h | h | h | h
    · cases h
    · cases h
    · cases h
    · cases h
    · cases h
    · injection h with h5
      rw [h5]
      exact ⟨rfl, rfl, rfl⟩
  · exact ⟨⟨lr, batchSize, gas, multi, 3, "val", "macro-f1", tds.i2l,
      "/tmp/" ++ strTake uuidHex 30 ++ "/" ++ "/temp.es.weights", v⟩,
      by simp [trainImpl]⟩
  · intro window rest best hlen hle
    have hne : window ≠ [] := by
      intro h
      rw [h] at hlen
      simp at hlen
    have := esRun_stops 3 window hne rest best 0 (by omega) hle
    rw [this, hlen]

/-- C4 witness: with patience 3 and current best 2, the three non-improving
rounds `[1, 1, 1]` stop the run before the later round `[9]`, and the best
score 2 is restored. -/
theorem trainImpl_early_stopping_witness :
    esRun 3 2 0 ([1, 1, 1] ++ [9]) = { rounds := 3, best := 2, stopped := true } :=
  (trainImpl_early_stopping wSys ⟨["O"], []⟩ ⟨["O"], []⟩ 1 8 2 false 0 "u"
    true).2.2.1 [1, 1, 1] [9] 2 (by decide) (by norm_num)

/-- C5: with report emission enabled, every device move in the evaluation
trace sends the batch's target tensor to the fixed device `cuda:0`,
whatever device the wrapper was constructed with (CPU included) and whatever
the other parameters are; with at least one batch such a move does occur. -/
theorem evaluate_report_device_fixed (self : SystemState) (ex : Externals)
    (loadDataset : String → Dataset) (pad : Int) (file : String)
    (batchSize : Nat) (multi : Bool) (wm exp : Int) (v : Bool) :
    (∀ t d, Effect.toDevice t d ∈
        (evaluate self ex loadDataset pad file batchSize multi wm exp v).1 →
      t = "target" ∧ d = Device.cuda 0) ∧
    ((loadDataset file).batches ≠ [] →
      Effect.toDevice "target" (Device.cuda 0) ∈
        (evaluate self ex loadDataset pad file batchSize multi wm exp v).1) := by
  constructor
  · intro t d hmem
    rw [evaluate_eq] at hmem
    rcases List.mem_append.mp hmem with h | h
    · simp at h
    · rcases evaluateImpl_mem self ex (loadDataset file) batchSize multi pad true
        wm exp v _ h with h1 | h1
      · rcases reportLoop_mem ex (loadDataset file).batches _ h1 with h2 | h2 | h2
        · injection h2 with ht hd
          exact ⟨ht, hd⟩
        · cases h2
        · cases h2
      · simp [evalScaffold] at h1
  · intro hne
    obtain ⟨b, rest, hbs⟩ := List.exists_cons_of_ne_nil hne
    rw [evaluate_eq]
    apply List.mem_append.mpr
    right
    apply evaluateImpl_loop_sub
    rw [hbs]
    exact (reportLoop_head ex b rest).1

/-- C5 witness: a CUDA-constructed wrapper evaluating a one-batch dataset
does move the target tensor to `cuda:0`. -/
theorem evaluate_report_device_fixed_witness :
    Effect.toDevice "target" (Device.cuda 0) ∈
      (evaluate wSysCuda wExB wLoadB 0 "eval.txt" 2 false 0 1 true).1 :=
  (evaluate_report_device_fixed wSysCuda wExB wLoadB 0 "eval.txt" 2 false 0 1
    true).2 (by decide)

/-- C6: with report emission enabled, every logits reshape in the evaluation
trace uses the fixed literal width 17, for every dataset whatever the size K
of its index-to-label mapping; with at least one batch such a reshape does
occur. -/
theorem evaluate_report_numlabels_17 (self : SystemState) (ex : Externals)
    (loadDataset : String → Dataset) (pad : Int) (file : String)
    (batchSize : Nat) (multi : Bool) (wm exp : Int) (v : Bool) :
    (∀ w, Effect.viewReshape w ∈
        (evaluate self ex loadDataset pad file batchSize multi wm exp v).1 →
      w = 17) ∧
    ((loadDataset file).batches ≠ [] →
      Effect.viewReshape 17 ∈
        (evaluate self ex loadDataset pad file batchSize multi wm exp v).1) := by
  constructor
  · intro w hmem
    rw [evaluate_eq] at hmem
    rcases List.mem_append.mp hmem with h | h
    · simp at h
    · rcases evaluateImpl_mem self ex (loadDataset file) batchSize multi pad true
        wm exp v _ h with h1 | h1
      · rcases reportLoop_mem ex (loadDataset file).batches _ h1 with h2 | h2 | h2
        · cases h2
        · cases h2
        · injection h2
      · simp [evalScaffold] at h1
  · intro hne
    obtain ⟨b, rest, hbs⟩ := List.exists_cons_of_ne_nil hne
    rw [evaluate_eq]
    apply List.mem_append.mpr
    right
    apply evaluateImpl_loop_sub
    rw [hbs]
    exact (reportLoop_head ex b rest).2

/-- C6 witness: a one-label dataset (K = 1 ≠ 17) still reshapes to width
17. -/
theorem evaluate_report_numlabels_17_witness :
    (wLoadB "eval.txt").i2l.length = 1 ∧
    Effect.viewReshape 17 ∈
      (evaluate wSys wExB wLoadB 0 "eval.txt" 2 false 0 1 true).1 :=
  ⟨rfl,
   (evaluate_report_numlabels_17 wSys wExB wLoadB 0 "eval.txt" 2 false 0 1
     true).2 (by decide)⟩

/-- C7: every sweep iteration of `tune` starts by reseeding the global
generator to 0, then constructs a fresh wrapper with that configuration's
dropout, then trains, then evaluates through `_evaluate_impl` with report
emission disabled (`report=False`, `which_model=-1`, `experiment=-1`,
`verbose=False`); no report file write occurs anywhere in the sweep, and
each iteration records that configuration's macro-F1 score alongside its
(lr, dropout, accumulation-steps) tuple. -/
theorem tune_iteration_protocol (name : String) (cuda : Bool)
    (exOf : Nat → Externals) (loadDataset : String → Dataset) (pad : Int)
    (tf vf : String) (multi : Bool) (uuidOf : Nat → String) :
    (tune name cuda exOf loadDataset pad tf vf multi uuidOf).1 =
      [Effect.buildTokenizer name, Effect.buildDataset tf,
       Effect.buildDataset vf] ++
        tuneParams.enum.flatMap (fun p =>
          Effect.manualSeed 0 :: Effect.constructWrapper name p.2.2.1 ::
            (trainImpl (mkSystem name cuda) (loadDataset tf) (loadDataset vf)
               p.2.1 tuneBatchSize p.2.2.2 multi pad (uuidOf p.1) true ++
             (evaluateImpl (mkSystem name cuda) (exOf p.1) (loadDataset vf)
               tuneBatchSize multi pad false (-1) (-1) false).1)) ∧
    (∀ p m c, Effect.fileWrite p m c ∉
      (tune name cuda exOf loadDataset pad tf vf multi uuidOf).1) ∧
    (tune name cuda exOf loadDataset pad tf vf multi uuidOf).2 =
      tuneParams.enum.map (fun p =>
        (((exOf p.1).runEval multi false).macroF1, p.2)) := by
  refine ⟨?_, ?_, ?_⟩
  · rw [tune_eq]
    rfl
  · intro p m c hmem
    rw [tune_eq] at hmem
    rcases List.mem_append.mp hmem with h | h
    · simp at h
    · obtain ⟨q, hq, hin⟩ := List.mem_flatMap.mp h
      rw [tuneIteration_fst] at hin
      rcases List.mem_cons.mp hin with h1 | h1
      · cases h1
      rcases List.mem_cons.mp h1 with h2 | h2
      · cases h2
      rcases List.mem_append.mp h2 with h3 | h3
      · simp only [trainImpl, List.mem_cons, List.not_mem_nil, or_false] at h3
        rcases h3 with h4 | h4 | h4 | h4 | h4 | h4 <;> cases h4
      · rcases List.mem_cons.mp h3 with h4 | h4
        · cases h4
        rcases List.mem_cons.mp h4 with h5 | h5
        · cases h5
        rcases List.mem_cons.mp h5 with h6 | h6
        · cases h6
        · simp at h6
  · rw [tune_eq]
    exact List.map_congr_left (fun p hp => tuneIteration_snd name cuda (exOf p.1)
      (loadDataset tf) (loadDataset vf) multi pad (uuidOf p.1) p.2)

/-- C7 witness: no report file write occurs in a concrete sweep. -/
theorem tune_iteration_protocol_witness :
    Effect.fileWrite "any" "w" "text" ∉
      (tune "bert" false (fun _ => wEx) wLoad 0 "train.txt" "val.txt" false
        (fun _ => "u")).1 :=
  (tune_iteration_protocol "bert" false (fun _ => wEx) wLoad 0 "train.txt"
    "val.txt" false (fun _ => "u")).2.1 "any" "w" "text"

/-- C8: `train` emits `torch.manual_seed(seed)` as its very first effect,
before the tokenizer construction and before either dataset construction,
for every seed; the Python default of the seed parameter is 0. -/
theorem train_seeds_before_data (self : SystemState)
    (loadDataset : String → Dataset) (pad : Int) (tf vf : String) (lr : Rat)
    (batchSize gas : Nat) (multi : Bool) (uuidHex : String) (v : Bool)
    (seed : Int) :
    train self loadDataset pad tf vf lr batchSize gas multi uuidHex v seed =
      Effect.manualSeed seed :: Effect.buildTokenizer self.pretrainedName ::
        Effect.buildDataset tf :: Effect.buildDataset vf ::
        trainImpl self (loadDataset tf) (loadDataset vf) lr batchSize gas multi
          pad uuidHex v ∧
    (train self loadDataset pad tf vf lr batchSize gas multi uuidHex v seed).get? 0 =
      some (Effect.manualSeed seed) ∧
    (∀ i f, (train self loadDataset pad tf vf lr batchSize gas multi uuidHex v
        seed).get? i = some (Effect.buildDataset f) → 0 < i) ∧
    trainDefaultSeed = 0 := by
  refine ⟨rfl, rfl, ?_, rfl⟩
  intro i f h
  cases i with
  | zero => simp [train] at h
  | succ n => exact Nat.succ_pos n

/-- C8 witness: in a concrete call the train-dataset construction sits at
index 2, strictly after the seeding effect at index 0. -/
theorem train_seeds_before_data_witness :
    (0 : Nat) < 2 ∧ trainDefaultSeed = 0 :=
  ⟨(train_seeds_before_data wSys wLoad 0 "t.txt" "v.txt" 1 8 2 false "u" true
      0).2.2.1 2 "t.txt" (by rfl),
   (train_seeds_before_data wSys wLoad 0 "t.txt" "v.txt" 1 8 2 false "u" true
      0).2.2.2⟩

/-- C9: each training run creates exactly one scratch directory, at
`/tmp/<uuid4().hex[:30]>/` — 30 lowercase-hex characters when `uuidHex` is a
32-character hex digest — holding the early-stopping checkpoint
`temp.es.weights`; distinct 30-character prefixes give distinct directories;
and no entry point of the module (`_train_impl`, `train`, `evaluate`, `tune`,
`save_model_state`) ever emits a removal effect, on any branch. -/
theorem trainImpl_scratch_dir (self : SystemState) (tds vds : Dataset)
    (lr : Rat) (batchSize gas : Nat) (multi : Bool) (pad : Int)
    (uuidHex : String) (v : Bool) (ex : Externals)
    (loadDataset : String → Dataset) (tf vf file : String) (seed wm exp : Int)
    (name : String) (cuda : Bool) (exOf : Nat → Externals)
    (uuidOf : Nat → String) (path : String)
    (hlen : uuidHex.length = 32) (hhex : uuidHex.data.all isHexCh = true) :
    (trainImpl self tds vds lr batchSize gas multi pad uuidHex v).filter
        isMakeDirs =
      [Effect.makeDirs ("/tmp/" ++ strTake uuidHex 30 ++ "/") true] ∧
    (strTake uuidHex 30).length = 30 ∧
    (strTake uuidHex 30).data.all isHexCh = true ∧
    (∃ cfg : TrainRunConfig,
      Effect.trainingRun cfg ∈
        trainImpl self tds vds lr batchSize gas multi pad uuidHex v ∧
      cfg.checkpointPath =
        "/tmp/" ++ strTake uuidHex 30 ++ "/" ++ "/temp.es.weights") ∧
    (∀ hex2 : String, strTake uuidHex 30 ≠ strTake hex2 30 →
      "/tmp/" ++ strTake uuidHex 30 ++ "/" ≠ "/tmp/" ++ strTake hex2 30 ++ "/") ∧
    removalFree (trainImpl self tds vds lr batchSize gas multi pad uuidHex v) ∧
    removalFree (train self loadDataset pad tf vf lr batchSize gas multi uuidHex
      v seed) ∧
    removalFree (evaluate self ex loadDataset pad file batchSize multi wm exp
      v).1 ∧
    removalFree (tune name cuda exOf loadDataset pad tf vf multi uuidOf).1 ∧
    removalFree (save_model_state self path) := by
  refine ⟨rfl, strTake_length uuidHex 30 (by omega), strTake_all_hex uuidHex 30 hhex,
    ⟨⟨lr, batchSize, gas, multi, 3, "val", "macro-f1", tds.i2l,
        "/tmp/" ++ strTake uuidHex 30 ++ "/" ++ "/temp.es.weights", v⟩,
      by simp [trainImpl], rfl⟩,
    fun hex2 hne => tmpBasePath_inj _ _ hne,
    trainImpl_removalFree self tds vds lr batchSize gas multi pad uuidHex v,
    train_removalFree self loadDataset pad tf vf lr batchSize gas multi uuidHex
      v seed,
    evaluate_removalFree self ex loadDataset pad file batchSize multi wm exp v,
    tune_removalFree name cuda exOf loadDataset pad tf vf multi uuidOf,
    save_model_state_removalFree self path⟩

/-- C9 witness: a concrete 32-character hex digest yields a 30-hex-character
scratch directory created exactly once. -/
theorem trainImpl_scratch_dir_witness :
    (trainImpl wSys ⟨["O"], []⟩ ⟨["O"], []⟩ 1 8 2 false 0
        "0123456789abcdef0123456789abcdef" true).filter isMakeDirs =
      [Effect.makeDirs
        ("/tmp/" ++ strTake "0123456789abcdef0123456789abcdef" 30 ++ "/") true] ∧
    (strTake "0123456789abcdef0123456789abcdef" 30).length = 30 ∧
    (strTake "0123456789abcdef0123456789abcdef" 30).data.all isHexCh = true :=
  ⟨(trainImpl_scratch_dir wSys ⟨["O"], []⟩ ⟨["O"], []⟩ 1 8 2 false 0
      "0123456789abcdef0123456789abcdef" true wEx wLoad "t.txt" "v.txt"
      "e.txt" 0 0 1 "bert" false (fun _ => wEx) (fun _ => "u") "m.bin"
      (by rfl) (by decide)).1,
   (trainImpl_scratch_dir wSys ⟨["O"], []⟩ ⟨["O"], []⟩ 1 8 2 false 0
      "0123456789abcdef0123456789abcdef" true wEx wLoad "t.txt" "v.txt"
      "e.txt" 0 0 1 "bert" false (fun _ => wEx) (fun _ => "u") "m.bin"
      (by rfl) (by decide)).2.1,
   (trainImpl_scratch_dir wSys ⟨["O"], []⟩ ⟨["O"], []⟩ 1 8 2 false 0
      "0123456789abcdef0123456789abcdef" true wEx wLoad "t.txt" "v.txt"
      "e.txt" 0 0 1 "bert" false (fun _ => wEx) (fun _ => "u") "m.bin"
      (by rfl) (by decide)).2.2.1⟩

/-- C10: the macro-F1 early-stopping evaluator configured by `_train_impl` is
built from the train dataset's index-to-label mapping `train_dataset.I2L`,
never the validation dataset's: every training-run configuration in the trace
carries `tds.i2l`, such a configuration is indeed emitted, and whenever the
two mappings differ the configured mapping differs from the validation
one. -/
theorem trainImpl_evaluator_uses_train_i2l (self : SystemState)
    (tds vds : Dataset) (lr : Rat) (batchSize gas : Nat) (multi : Bool)
    (pad : Int) (uuidHex : String) (v : Bool) :
    (∀ cfg : TrainRunConfig,
      Effect.trainingRun cfg ∈
        trainImpl self tds vds lr batchSize gas multi pad uuidHex v →
      cfg.evaluatorI2L = tds.i2l) ∧
    (Effect.trainingRun ⟨lr, batchSize, gas, multi, 3, "val", "macro-f1",
        tds.i2l, "/tmp/" ++ strTake uuidHex 30 ++ "/" ++ "/temp.es.weights",
        v⟩ ∈
      trainImpl self tds vds lr batchSize gas multi pad uuidHex v) ∧
    (tds.i2l ≠ vds.i2l →
      ∀ cfg : TrainRunConfig,
        Effect.trainingRun cfg ∈
          trainImpl self tds vds lr batchSize gas multi pad uuidHex v →
        cfg.evaluatorI2L ≠ vds.i2l) := by
  have hall : ∀ cfg : TrainRunConfig,
      Effect.trainingRun cfg ∈
        trainImpl self tds vds lr batchSize gas multi pad uuidHex v →
      cfg.evaluatorI2L = tds.i2l := by
    intro cfg hmem
    simp only [trainImpl, List.mem_cons, List.not_mem_nil, or_false] at hmem
    rcases hmem with h | h | h | h | h | h
    · cases h
    · cases h
    · cases h
    · cases h
    · cases h
    · injection h with h5
      rw [h5]
  refine ⟨hall, by simp [trainImpl], ?_⟩
  intro hne cfg hmem
  rw [hall cfg hmem]
  exact hne

/-- C10 witness: with train mapping `["A"]` and validation mapping `["B"]`,
the configured evaluator mapping is `["A"]`, not `["B"]`. -/
theorem trainImpl_evaluator_uses_train_i2l_witness :
    (Effect.trainingRun ⟨1, 8, 2, false, 3, "val", "macro-f1", ["A"],
        "/tmp/" ++ strTake "u" 30 ++ "/" ++ "/temp.es.weights", true⟩ ∈
      trainImpl wSys ⟨["A"], []⟩ ⟨["B"], []⟩ 1 8 2 false 0 "u" true) ∧
    (["A"] : List String) ≠ ["B"] :=
  ⟨(trainImpl_evaluator_uses_train_i2l wSys ⟨["A"], []⟩ ⟨["B"], []⟩ 1 8 2 false
      0 "u" true).2.1,
   (trainImpl_evaluator_uses_train_i2l wSys ⟨["A"], []⟩ ⟨["B"], []⟩ 1 8 2 false
      0 "u" true).2.2 (by decide) _
    (trainImpl_evaluator_uses_train_i2l wSys ⟨["A"], []⟩ ⟨["B"], []⟩ 1 8 2 false
      0 "u" true).2.1⟩

end NERBert
